import Mathlib

/-!
Verification of the motion-and-gesture event-detection engine of the
VirtualTrailRun repository: a shallow embedding of `src/headTracker.js`
and `src/collectibles.js` into Lean, with theorems settling the spec's
testable properties.

Conventions of the embedding:
* JavaScript numbers are modelled as `ℚ` (coordinates, movements) or `ℤ`
  (millisecond timestamps from `Date.now()`).
* The source compares Euclidean distances (`Math.sqrt(dx*dx + dy*dy)`)
  against non-negative thresholds; the embedding compares squared
  distances against squared thresholds, which yields the same Boolean
  because squaring is monotone on non-negative reals.
* Stateful classes become explicit state records plus step functions.
-/

namespace VirtualTrailRun

/-! ## Head tracker (`src/headTracker.js`) -/

/-- Direction of vertical head movement (`'up'` / `'down'` strings in the
source; `null` is modelled as `Option.none`). -/
inductive Dir
  | up
  | down
  deriving DecidableEq, Repr

/-- Classification of a frame's vertical movement with the dead-zone
threshold `bobThreshold = 5` (headTracker.js line 196):
`movement > 5 → 'down'`, `movement < -5 → 'up'`, else `null`. -/
def classifyDir (movement : ℚ) : Option Dir :=
  if movement > 5 then some .down
  else if movement < -5 then some .up
  else none

/-- Mutable state of the `HeadTracker` class relevant to tracking
(constructor of headTracker.js). `maxHistoryLength = 30`. -/
structure HT where
  previousNoseY : Option ℚ := none
  currentNoseY : Option ℚ := none
  verticalMovement : ℚ := 0
  movementHistory : List ℚ := []
  bobCount : ℕ := 0
  lastBobDirection : Option Dir := none
  bobTimestamps : List ℤ := []
  deriving DecidableEq, Repr

/-- `detectBob(movement)` (headTracker.js lines 195-217) at wall-clock
time `now`: classify the direction, count a bob exactly when the
direction is non-null, the last direction is non-null, and they differ;
on a count, push `now` and prune timestamps to those strictly newer than
`now - 60000`; finally record the direction when non-null. -/
def detectBob (now : ℤ) (movement : ℚ) (s : HT) : HT :=
  let currentDirection := classifyDir movement
  let s1 :=
    match currentDirection, s.lastBobDirection with
    | some d, some last =>
        if d ≠ last then
          { s with
              bobCount := s.bobCount + 1,
              bobTimestamps :=
                (s.bobTimestamps ++ [now]).filter (fun t => decide (t > now - 60000)) }
        else s
    | _, _ => s
  match currentDirection with
  | some d => { s1 with lastBobDirection := some d }
  | none => s1

/-- `processFaceData(face)` (headTracker.js lines 164-190) given the
nose-tip y-coordinate `y`: when a previous baseline exists compute the
movement, update `verticalMovement` and the capped `movementHistory`,
run `detectBob`; always set `previousNoseY := currentNoseY` at the end. -/
def processFaceData (now : ℤ) (y : ℚ) (s : HT) : HT :=
  let s0 := { s with currentNoseY := some y }
  let s1 :=
    match s0.previousNoseY with
    | some prev =>
        let movement := y - prev
        let mh := s0.movementHistory ++ [movement]
        let mh := if mh.length > 30 then mh.tail else mh
        detectBob now movement
          { s0 with verticalMovement := |movement|, movementHistory := mh }
    | none => s0
  { s1 with previousNoseY := some y }

/-- Per-tick input from the keypoint source in `track()`
(headTracker.js lines 133-159): the `estimateFaces` call throws, returns
no face, or returns a face with a nose-tip y-coordinate. -/
inductive TrackInput
  | err
  | empty
  | face (y : ℚ)

/-- One tick of `track()` (headTracker.js lines 133-159): an exception is
caught leaving the state untouched; an empty detection resets
`previousNoseY` to `null` and `verticalMovement` to 0; a detected face is
processed by `processFaceData`. -/
def trackStep (now : ℤ) (input : TrackInput) (s : HT) : HT :=
  match input with
  | .err => s
  | .empty => { s with previousNoseY := none, verticalMovement := 0 }
  | .face y => processFaceData now y s

/-- Run `detectBob` over a sequence of (time, movement-delta) frames. -/
def runBobDeltas (steps : List (ℤ × ℚ)) (s : HT) : HT :=
  steps.foldl (fun s p => detectBob p.1 p.2 s) s

/-- Run `track` ticks over a sequence of (time, input) frames from the
freshly constructed tracker state. -/
def runTrack (steps : List (ℤ × TrackInput)) : HT :=
  steps.foldl (fun s p => trackStep p.1 p.2 s) {}

/-- `getBobsPerMinute()` (headTracker.js lines 274-278) at time `now`:
count stored timestamps strictly newer than `now - 60000`. -/
def getBobsPerMinute (now : ℤ) (s : HT) : ℕ :=
  (s.bobTimestamps.filter (fun t => decide (t > now - 60000))).length

/-- Specification-side count of sign changes in a classified-direction
sequence: the number of adjacent unequal pairs, with an optional carried
previous direction (None frames are absent from the list). -/
def dirChanges : Option Dir → List Dir → ℕ
  | _, [] => 0
  | none, d :: rest => dirChanges (some d) rest
  | some prev, d :: rest => (if d = prev then 0 else 1) + dirChanges (some d) rest

lemma detectBob_bobCount (now : ℤ) (movement : ℚ) (s : HT) :
    (detectBob now movement s).bobCount =
      s.bobCount +
        (match classifyDir movement, s.lastBobDirection with
         | some d, some last => if d = last then 0 else 1
         | _, _ => 0) := by
  unfold detectBob
  rcases h : classifyDir movement with _ | d <;>
    rcases h' : s.lastBobDirection with _ | last <;>
      simp [h, h'] <;>
        by_cases hd : d = last <;> simp [hd]

lemma detectBob_lastDir (now : ℤ) (movement : ℚ) (s : HT) :
    (detectBob now movement s).lastBobDirection =
      (match classifyDir movement with
       | some d => some d
       | none => s.lastBobDirection) := by
  unfold detectBob
  rcases h : classifyDir movement with _ | d <;>
    rcases h' : s.lastBobDirection with _ | last <;>
      simp [h, h'] <;>
        by_cases hd : d = last <;> simp [hd]

lemma runBobDeltas_bobCount (steps : List (ℤ × ℚ)) (s : HT) :
    (runBobDeltas steps s).bobCount =
      s.bobCount +
        dirChanges s.lastBobDirection ((steps.map Prod.snd).filterMap classifyDir) := by
  induction steps generalizing s with
  | nil => simp [runBobDeltas, dirChanges]
  | cons p rest ih =>
      simp only [runBobDeltas, List.foldl_cons, List.map_cons, List.filterMap_cons]
      rcases h : classifyDir p.2 with _ | d
      · have hc := detectBob_bobCount p.1 p.2 s
        have hl := detectBob_lastDir p.1 p.2 s
        rw [h] at hc hl
        simp only [runBobDeltas] at ih
        rw [ih, hc, hl]
        simp
      · have hc := detectBob_bobCount p.1 p.2 s
        have hl := detectBob_lastDir p.1 p.2 s
        rw [h] at hc hl
        simp only [runBobDeltas] at ih
        rw [ih, hc, hl]
        rcases h' : s.lastBobDirection with _ | last
        · simp [dirChanges]
        · by_cases hd : d = last <;>
            simp [dirChanges, hd, Nat.add_assoc, Nat.add_comm]

/-- C1: For every sequence of per-frame reference-point deltas fed to the
bob detector (threshold 5), the final bob count equals the number of sign
changes in the sequence of classified directions after dead-zone
filtering (Down if delta > 5, Up if delta < -5, else None; None frames
never constitute a change); and the reference-point sequence
[100, 94, 88, 94, 100, 106] yields exactly 1 counted bob. -/
theorem C1_bob_count_equals_direction_sign_changes :
    (∀ steps : List (ℤ × ℚ),
        (runBobDeltas steps {}).bobCount =
          dirChanges none ((steps.map Prod.snd).filterMap classifyDir)) ∧
    (runTrack
        [(0, .face 100), (1, .face 94), (2, .face 88),
         (3, .face 94), (4, .face 100), (5, .face 106)]).bobCount = 1 := by
  constructor
  · intro steps
    simpa using runBobDeltas_bobCount steps {}
  · norm_num [runTrack, trackStep, processFaceData, detectBob, classifyDir] <;> decide

/-- C5 counterexample: on a tick whose detection returns an empty result,
`previousNoseY` is NOT preserved: from a state with `previousNoseY = 100`
the empty tick resets it to `null` (headTracker.js line 149), so the
claim that all prior bob-detector state including `previousReferenceY` is
preserved unchanged fails. -/
theorem C5_counterexample_empty_resets_previousNoseY :
    (trackStep 0 .empty { previousNoseY := some 100 }).previousNoseY ≠
      ({ previousNoseY := some 100 } : HT).previousNoseY := by
  simp [trackStep]

/-- C5 (amended): a tick whose Keypoint Source call throws preserves the
whole tracker state unchanged; a tick with an empty result (no face)
preserves `lastBobDirection`, `bobCount` and `bobTimestamps` but resets
`previousNoseY` to `null` (and `verticalMovement` to 0), and the next
tick proceeds normally. -/
theorem C5_failure_tick_state (s : HT) (now : ℤ) :
    trackStep now .err s = s ∧
    (trackStep now .empty s).previousNoseY = none ∧
    (trackStep now .empty s).lastBobDirection = s.lastBobDirection ∧
    (trackStep now .empty s).bobCount = s.bobCount ∧
    (trackStep now .empty s).bobTimestamps = s.bobTimestamps :=
  ⟨rfl, rfl, rfl, rfl, rfl⟩

lemma detectBob_timestamps_mem (now : ℤ) (m : ℚ) (s : HT) :
    ∀ t ∈ (detectBob now m s).bobTimestamps, t ∈ s.bobTimestamps ∨ t = now := by
  intro t ht
  unfold detectBob at ht
  rcases h : classifyDir m with _ | d <;> rw [h] at ht <;>
    rcases h' : s.lastBobDirection with _ | last <;> rw [h'] at ht <;>
      simp only [] at ht
  · exact .inl ht
  · exact .inl ht
  · exact .inl ht
  · by_cases hd : d = last
    · simp [hd] at ht
      exact .inl ht
    · simp [hd, List.mem_filter] at ht
      rcases ht with ⟨h1, _⟩ | h1
      · exact .inl h1
      · exact .inr h1

lemma processFaceData_timestamps_mem (now : ℤ) (y : ℚ) (s : HT) :
    ∀ t ∈ (processFaceData now y s).bobTimestamps, t ∈ s.bobTimestamps ∨ t = now := by
  intro t ht
  unfold processFaceData at ht
  rcases h : s.previousNoseY with _ | prev <;> rw [h] at ht <;> simp only [] at ht
  · exact .inl ht
  · rcases detectBob_timestamps_mem now (y - prev) _ t ht with h1 | h1
    · exact .inl h1
    · exact .inr h1

lemma trackStep_timestamps_mem (now : ℤ) (input : TrackInput) (s : HT) :
    ∀ t ∈ (trackStep now input s).bobTimestamps, t ∈ s.bobTimestamps ∨ t = now := by
  intro t ht
  cases input with
  | err => exact .inl ht
  | empty => exact .inl ht
  | face y => exact processFaceData_timestamps_mem now y s t ht

lemma foldl_trackStep_timestamps_mem (steps : List (ℤ × TrackInput)) (s : HT) :
    ∀ t ∈ (steps.foldl (fun s p => trackStep p.1 p.2 s) s).bobTimestamps,
      t ∈ s.bobTimestamps ∨ ∃ p ∈ steps, t = p.1 := by
  induction steps generalizing s with
  | nil => intro t ht; exact .inl ht
  | cons p rest ih =>
      intro t ht
      rcases ih (trackStep p.1 p.2 s) t ht with h1 | h1
      · rcases trackStep_timestamps_mem p.1 p.2 s t h1 with h2 | h2
        · exact .inl h2
        · exact .inr ⟨p, by simp, h2⟩
      · rcases h1 with ⟨q, hq, ht⟩
        exact .inr ⟨q, by simp [hq], ht⟩

/-- Every timestamp ever stored in `bobTimestamps` over a run of `track`
ticks is the wall-clock time of one of the ticks (timestamps are pushed
as `Date.now()` at bob time). -/
lemma runTrack_timestamps_mem (steps : List (ℤ × TrackInput)) :
    ∀ t ∈ (runTrack steps).bobTimestamps, ∃ p ∈ steps, t = p.1 := by
  intro t ht
  rcases foldl_trackStep_timestamps_mem steps {} t ht with h | h
  · simp at h
  · exact h

/-- C6: at time `T`, for every reachable contents of the bob-timestamp
window (every run of `track` ticks whose tick times are at most `T`),
`getBobsPerMinute()` returns exactly the number of stored timestamps `t`
with `T - 60000 < t ≤ T`; a timestamp exactly at `T - 60000` is excluded
by the strict inequality. -/
theorem C6_bobs_per_minute_window (T : ℤ) (steps : List (ℤ × TrackInput))
    (h : ∀ p ∈ steps, p.1 ≤ T) :
    getBobsPerMinute T (runTrack steps) =
      ((runTrack steps).bobTimestamps.filter
        (fun t => decide (T - 60000 < t ∧ t ≤ T))).length := by
  have hts : ∀ t ∈ (runTrack steps).bobTimestamps, t ≤ T := by
    intro t ht
    rcases runTrack_timestamps_mem steps t ht with ⟨p, hp, rfl⟩
    exact h p hp
  unfold getBobsPerMinute
  congr 1
  refine List.filter_congr ?_
  intro t ht
  have := hts t ht
  simp only [decide_eq_decide]
  constructor
  · intro hgt; exact ⟨hgt, this⟩
  · intro hand; exact hand.1

/-- Witness for C6: a run with ticks at times 10, 20, 30 (nose at
100, 110, 100: one up→down reversal, one bob at time 30), read at
T = 100. -/
theorem C6_bobs_per_minute_window_witness :
    (∀ p ∈ [((10 : ℤ), TrackInput.face 100), (20, TrackInput.face 110),
            (30, TrackInput.face 100)], p.1 ≤ 100) ∧
    getBobsPerMinute 100
        (runTrack [(10, .face 100), (20, .face 110), (30, .face 100)]) =
      ((runTrack [(10, .face 100), (20, .face 110),
          (30, .face 100)]).bobTimestamps.filter
        (fun t => decide (100 - 60000 < t ∧ t ≤ 100))).length :=
  ⟨by decide, C6_bobs_per_minute_window 100 _ (by decide)⟩

/-! ## Hand gesture classifiers (`src/collectibles.js`)

A hand `PoseResult` is its 21 keypoints, indexed by the MediaPipe hand
topology (0 = wrist/palm, 4 = thumb tip, 8 = index tip, ...). The source
compares `Math.sqrt`-distances against non-negative thresholds; here the
comparisons are carried out on squared distances against squared
thresholds (the same Booleans, since squaring is monotone on
non-negative reals, and `min` commutes with squaring there). -/

/-- A hand pose: the `keypoints` array, mapping a landmark index to its
position in frame-pixel space (only indices 0-20 are ever accessed). -/
def Hand := ℕ → ℚ × ℚ

/-- Squared Euclidean distance, the square of `distance(p1, p2)`
(collectibles.js lines 697-699). -/
def distSq (p q : ℚ × ℚ) : ℚ :=
  (q.1 - p.1) ^ 2 + (q.2 - p.2) ^ 2

/-- `isGrabbingGesture(hand)` (collectibles.js lines 495-524):
pinching iff distance(thumbTip, indexTip) < min(60, reachDistance × 0.5)
with reachDistance = distance(thumbMid, indexMid); in squares:
pinchSq < min(3600, reachSq / 4). -/
def isGrabbingGesture (h : Hand) : Bool :=
  let pinchSq := distSq (h 4) (h 8)
  let reachSq := distSq (h 3) (h 6)
  decide (pinchSq < min 3600 (reachSq / 4))

/-- `isClosedFistGesture(hand)` (collectibles.js lines 673-692): every
fingertip within its per-finger distance of the palm (thumb 60 px,
others 70 px); in squares 3600 and 4900. -/
def isClosedFistGesture (h : Hand) : Bool :=
  decide (distSq (h 4) (h 0) < 3600) &&
  decide (distSq (h 8) (h 0) < 4900) &&
  decide (distSq (h 12) (h 0) < 4900) &&
  decide (distSq (h 16) (h 0) < 4900) &&
  decide (distSq (h 20) (h 0) < 4900)

/-- The flat-hand predicate computed inside `detectSlashGesture`
(collectibles.js lines 546-563): index, middle and ring tips each more
than 50 px from their bases (in squares 2500) and the four non-thumb
fingertip y-coordinates pairwise-adjacent within 50 px. -/
def isFlatHandGesture (h : Hand) : Bool :=
  decide (distSq (h 8) (h 5) > 2500) &&
  decide (distSq (h 12) (h 9) > 2500) &&
  decide (distSq (h 16) (h 13) > 2500) &&
  decide (|(h 8).2 - (h 12).2| < 50) &&
  decide (|(h 12).2 - (h 16).2| < 50) &&
  decide (|(h 16).2 - (h 20).2| < 50)

/-- Per-frame gesture flags set by `detectGesture` (collectibles.js
lines 277-293): the slash check records the flat-hand flag, the closed
fist is checked before pinch, and a detected fist forces
`isGrabbing = false`; the flat-hand flag is not consulted by the pinch
branch. -/
structure GestureFlags where
  isFlatHand : Bool
  isClosedFist : Bool
  isGrabbing : Bool
  deriving DecidableEq, Repr

/-- The gesture-classification portion of one `detectGesture` frame
(collectibles.js lines 277-293) for a detected, non-face-filtered hand. -/
def detectGestureFlags (h : Hand) : GestureFlags :=
  let flat := isFlatHandGesture h
  let fist := isClosedFistGesture h
  let grabbing := if fist then false else isGrabbingGesture h
  ⟨flat, fist, grabbing⟩

/-- Scale all 21 keypoint coordinates by `k`. -/
def scaleHand (k : ℚ) (h : Hand) : Hand :=
  fun i => (k * (h i).1, k * (h i).2)

lemma distSq_scaleHand (k : ℚ) (h : Hand) (i j : ℕ) :
    distSq (scaleHand k h i) (scaleHand k h j) = k ^ 2 * distSq (h i) (h j) := by
  unfold distSq scaleHand
  ring

/-- The concrete hand of the C3 counterexample: thumb tip (0,0), index
tip (70,0), thumb mid joint (0,0), index mid joint (200,0). -/
def handC3 : Hand :=
  fun i => if i = 6 then (200, 0) else if i = 8 then (70, 0) else (0, 0)

/-- C3 counterexample: the pinch classification is not invariant under
scaling all keypoints by the positive factor 1/2: with pinch distance 70
and reach distance 200 the fixed 60 px cap is active and 70 < 60 fails,
but after halving (pinch 35, reach 100) the reach-relative threshold 50
applies and 35 < 50 holds. -/
theorem C3_counterexample_cap_breaks_scale_invariance :
    (0 : ℚ) < 1 / 2 ∧
    isGrabbingGesture handC3 = false ∧
    isGrabbingGesture (scaleHand (1 / 2) handC3) = true := by
  refine ⟨by norm_num, ?_, ?_⟩ <;>
    norm_num [isGrabbingGesture, scaleHand, handC3, distSq]

/-- C3 (amended): scaling all 21 keypoint coordinates by a positive
factor `k` leaves the pinch classification unchanged whenever the
reach-relative threshold (not the fixed 60 px cap) is the active branch
of `min` at both scales, i.e. whenever the squared reach distance is at
most 120² = 14400 before and after scaling; with the fixed cap active,
scaling can change the classification. -/
theorem C3_pinch_scale_invariance_below_cap (h : Hand) (k : ℚ)
    (hk : 0 < k)
    (hreach : distSq (h 3) (h 6) ≤ 14400)
    (hreach' : k ^ 2 * distSq (h 3) (h 6) ≤ 14400) :
    isGrabbingGesture (scaleHand k h) = isGrabbingGesture h := by
  simp only [isGrabbingGesture, distSq_scaleHand]
  have hmin : min (3600 : ℚ) (distSq (h 3) (h 6) / 4) = distSq (h 3) (h 6) / 4 :=
    min_eq_right (by linarith)
  have hmin' :
      min (3600 : ℚ) (k ^ 2 * distSq (h 3) (h 6) / 4) =
        k ^ 2 * distSq (h 3) (h 6) / 4 :=
    min_eq_right (by linarith)
  rw [hmin, hmin']
  simp only [decide_eq_decide]
  have hk2 : 0 < k ^ 2 := by positivity
  constructor
  · intro hlt
    nlinarith
  · intro hlt
    nlinarith

/-- A hand with reach distance 40 and pinch distance 10, used to witness
the amended C3. -/
def handC3w : Hand :=
  fun i => if i = 6 then (40, 0) else if i = 8 then (10, 0) else (0, 0)

/-- Witness for C3 (amended): a hand with reach distance 40 and pinch
distance 10, scaled by k = 2 (squared reaches 1600 and 6400, both below
14400). -/
theorem C3_pinch_scale_invariance_below_cap_witness :
    (0 : ℚ) < 2 ∧
    distSq (handC3w 3) (handC3w 6) ≤ 14400 ∧
    (2 : ℚ) ^ 2 * distSq (handC3w 3) (handC3w 6) ≤ 14400 ∧
    isGrabbingGesture (scaleHand 2 handC3w) = isGrabbingGesture handC3w :=
  ⟨by norm_num, by norm_num [handC3w, distSq],
   by norm_num [handC3w, distSq],
   C3_pinch_scale_invariance_below_cap handC3w 2 (by norm_num)
     (by norm_num [handC3w, distSq])
     (by norm_num [handC3w, distSq])⟩

/-- The concrete hand of the C4 counterexample: index/middle/ring
extended and parallel (flat hand), thumb tip at (90,0) next to the index
tip at (100,0) (pinching), fingertips far from the palm (no fist). -/
def handC4 : Hand := fun i =>
  if i = 3 then (0, 50)
  else if i = 4 then (90, 0)
  else if i = 6 then (200, 50)
  else if i = 8 then (100, 0)
  else if i = 9 then (0, 10)
  else if i = 12 then (100, 10)
  else if i = 13 then (0, 20)
  else if i = 16 then (100, 20)
  else if i = 20 then (100, 30)
  else (0, 0)

/-- C4 counterexample: a frame whose hand satisfies the flat-hand
predicate is nonetheless classified as pinching by `detectGesture`
(collectibles.js lines 277-293 never consult the flat-hand flag before
the pinch branch), so flat-hand does not suppress pinch evaluation. -/
theorem C4_counterexample_flat_hand_pinches :
    (detectGestureFlags handC4).isFlatHand = true ∧
    (detectGestureFlags handC4).isGrabbing = true := by
  constructor <;>
    norm_num [detectGestureFlags, isFlatHandGesture, isClosedFistGesture,
      isGrabbingGesture, handC4, distSq]

/-- C4 (amended): in every frame's gesture evaluation the closed fist is
checked before pinch and a detected fist suppresses pinch for that
frame; the flat-hand predicate, however, does not suppress pinch
evaluation — there is a frame whose hand is simultaneously classified
flat and pinching. -/
theorem C4_fist_precedence_flat_no_suppression :
    (∀ h : Hand, isClosedFistGesture h = true →
        (detectGestureFlags h).isGrabbing = false) ∧
    (∃ h : Hand, (detectGestureFlags h).isFlatHand = true ∧
        (detectGestureFlags h).isGrabbing = true) := by
  constructor
  · intro h hfist
    simp [detectGestureFlags, hfist]
  · refine ⟨handC4, ?_, ?_⟩ <;>
      norm_num [detectGestureFlags, isFlatHandGesture, isClosedFistGesture,
        isGrabbingGesture, handC4, distSq]

/-- The all-at-origin hand: every fingertip coincides with the palm, a
closed fist. -/
def handFist : Hand := fun _ => (0, 0)

/-- Witness for C4 (amended): the all-at-origin hand is a closed fist,
and the theorem yields that its pinch flag is forced off. -/
theorem C4_fist_precedence_witness :
    isClosedFistGesture handFist = true ∧
    (detectGestureFlags handFist).isGrabbing = false :=
  ⟨by norm_num [isClosedFistGesture, handFist, distSq],
   C4_fist_precedence_flat_no_suppression.1 handFist
     (by norm_num [isClosedFistGesture, handFist, distSq])⟩

/-! ## Miss-feedback throttling (`src/collectibles.js`) -/

/-- The throttle state: `lastMissTime`, initialised to 0 in the
constructor (collectibles.js line 26); `missThrottleDelay = 500`. -/
structure MissState where
  lastMissTime : ℤ := 0
  deriving DecidableEq, Repr

/-- `showMissFeedback` (collectibles.js lines 827-863) at time `now`:
a miss arriving sooner than 500 ms after `lastMissTime` returns without
emitting; otherwise the miss notification is emitted and `lastMissTime`
is set to `now`. The Boolean is whether a notification was emitted. -/
def showMissFeedback (now : ℤ) (s : MissState) : Bool × MissState :=
  if now - s.lastMissTime < 500 then (false, s)
  else (true, { lastMissTime := now })

/-- The times of the emitted miss notifications over a sequence of
pinch-with-no-hit frames at the given times. -/
def missEmissions : List ℤ → MissState → List ℤ
  | [], _ => []
  | t :: rest, s =>
      let r := showMissFeedback t s
      (if r.1 then [t] else []) ++ missEmissions rest r.2

lemma missEmissions_chain (times : List ℤ) (s : MissState) :
    List.Chain' (fun a b => 500 ≤ b - a) (missEmissions times s) ∧
      ∀ h ∈ (missEmissions times s).head?, 500 ≤ h - s.lastMissTime := by
  induction times generalizing s with
  | nil => simp [missEmissions]
  | cons t rest ih =>
      by_cases hc : t - s.lastMissTime < 500
      · simpa [missEmissions, showMissFeedback, hc] using ih s
      · have ih' := ih { lastMissTime := t }
        have hred : missEmissions (t :: rest) s =
            t :: missEmissions rest { lastMissTime := t } := by
          simp [missEmissions, showMissFeedback, hc]
        rw [hred]
        constructor
        · exact List.chain'_cons'.mpr ⟨ih'.2, ih'.1⟩
        · intro h hh
          simp only [List.head?_cons, Option.mem_def, Option.some.injEq] at hh
          subst hh
          omega

/-- C8: over every sequence of pinch-with-no-hit frames, no two emitted
miss notifications lie within 500 ms of each other (consecutive emission
times differ by at least the throttle interval), and a miss arriving
sooner than 500 ms after the previously recorded miss time is dropped
without emission or state change. -/
theorem C8_miss_feedback_throttled :
    (∀ times : List ℤ,
        List.Chain' (fun a b => 500 ≤ b - a) (missEmissions times {})) ∧
    (∀ (now : ℤ) (s : MissState), now - s.lastMissTime < 500 →
        showMissFeedback now s = (false, s)) := by
  constructor
  · intro times
    exact (missEmissions_chain times {}).1
  · intro now s hlt
    simp [showMissFeedback, hlt]

/-- Witness for C8: a burst of misses at 1000, 1200, 1600 ms emits only
at 1000 and 1600; the miss at 1200 (200 ms after the emission at 1000)
is dropped. -/
theorem C8_miss_feedback_throttled_witness :
    List.Chain' (fun a b => 500 ≤ b - a) (missEmissions [1000, 1200, 1600] {}) ∧
    ((1200 : ℤ) - 1000 < 500 ∧
      showMissFeedback 1200 { lastMissTime := 1000 } =
        (false, { lastMissTime := 1000 })) :=
  ⟨C8_miss_feedback_throttled.1 [1000, 1200, 1600],
   by decide, C8_miss_feedback_throttled.2 1200 { lastMissTime := 1000 } (by decide)⟩

/-! ## Slash detector speed computation (`src/collectibles.js`)

`detectSlashGesture` (lines 588-632) computes
`speed = distance / (timeDiff / 1000)` where `distance =
Math.sqrt(dx*dx + dy*dy)` and `timeDiff = newest.time - oldest.time`,
with no guard against `timeDiff = 0`. JavaScript IEEE-754 division by
zero yields `Infinity` for a positive numerator and `NaN` for `0 / 0`;
`NaN > 15` is false and `Infinity > 15` is true. The embedding records
the IEEE class of the computed speed and expresses `speed > 15` on
squared quantities (for `timeDiff > 0`, `dist/(td/1000) > 15` iff
`1000000·distSq > 225·td²`; for `timeDiff < 0` the speed is negative and
never exceeds 15). -/

/-- One entry of `slashHistory`: `{x, y, time}` of the wrist
(collectibles.js line 581). -/
structure Sample where
  x : ℚ
  y : ℚ
  time : ℤ
  deriving DecidableEq, Repr

/-- IEEE class of the computed scalar speed. -/
inductive SpeedClass
  | finite
  | infinite
  | nan
  deriving DecidableEq, Repr

/-- A fired slash event: start point, end point, and the IEEE class of
the speed value it carries (collectibles.js lines 621-629; the angle is
omitted, being irrelevant to the claims). -/
structure SlashEvt where
  startX : ℚ
  startY : ℚ
  endX : ℚ
  endY : ℚ
  speedClass : SpeedClass
  deriving DecidableEq, Repr

/-- The oldest history entry, `slashHistory[0]`. -/
def slashOldest (hist : List Sample) : Sample :=
  hist.headD ⟨0, 0, 0⟩

/-- The newest history entry, `slashHistory[slashHistory.length - 1]`. -/
def slashNewest (hist : List Sample) : Sample :=
  hist.getLastD ⟨0, 0, 0⟩

/-- `timeDiff = newest.time - oldest.time` (line 596). -/
def slashTimeDiff (hist : List Sample) : ℤ :=
  (slashNewest hist).time - (slashOldest hist).time

/-- Squared straight-line displacement `dx² + dy²` (lines 597-599). -/
def slashDispSq (hist : List Sample) : ℚ :=
  ((slashNewest hist).x - (slashOldest hist).x) ^ 2 +
    ((slashNewest hist).y - (slashOldest hist).y) ^ 2

/-- IEEE class of `speed = distance / (timeDiff / 1000)`: division of a
non-negative finite numerator by zero gives `Infinity` when the numerator
is positive and `NaN` when it is zero; otherwise the quotient is finite. -/
def speedClassOf (dSq : ℚ) (td : ℤ) : SpeedClass :=
  if td = 0 then (if dSq > 0 then .infinite else .nan) else .finite

/-- The source predicate `speed > 15` (line 608): `Infinity > 15` is
true, `NaN > 15` is false, and for a nonzero time difference the finite
comparison is carried out on squares (a negative time difference gives a
non-positive speed). -/
def speedExceeds (dSq : ℚ) (td : ℤ) : Bool :=
  if td = 0 then decide (dSq > 0)
  else decide (0 < td ∧ 1000000 * dSq > 225 * (td : ℚ) ^ 2)

/-- The movement-detection tail of `detectSlashGesture` (collectibles.js
lines 588-632), given the history after the current flat-hand frame was
pushed: with fewer than 5 samples no event; otherwise a slash fires iff
the speed exceeds 15 px/s and no cooldown (`isSlashing`) is active. -/
def detectSlashCore (hist : List Sample) : Bool → Option SlashEvt :=
  fun isSlashing =>
    if hist.length < 5 then none
    else
      let oldest := slashOldest hist
      let newest := slashNewest hist
      let dSq := slashDispSq hist
      let td := slashTimeDiff hist
      if speedExceeds dSq td && !isSlashing then
        some ⟨oldest.x, oldest.y, newest.x, newest.y, speedClassOf dSq td⟩
      else none

lemma slashTimeDiff_eq_zero_of_const (hist : List Sample) (t0 : ℤ)
    (hne : hist ≠ []) (hsame : ∀ s ∈ hist, s.time = t0) :
    slashTimeDiff hist = 0 := by
  have h1 : slashOldest hist ∈ hist := by
    unfold slashOldest
    cases hist with
    | nil => exact absurd rfl hne
    | cons a l => simp
  have h2 : slashNewest hist ∈ hist := by
    unfold slashNewest
    cases hist with
    | nil => exact absurd rfl hne
    | cons a l =>
        rw [List.getLastD_eq_getLast?, List.getLast?_eq_getLast (a :: l) (by simp)]
        simp [List.getLast_mem]
  unfold slashTimeDiff
  rw [hsame _ h1, hsame _ h2]
  ring

/-- C9: when the slash history holds at least 5 samples that all share
one timestamp, the elapsed time is 0 and the unguarded division makes
the speed non-finite: with zero displacement the speed is NaN and no
slash fires; with positive displacement the speed is Infinity, which
exceeds the 15 px/s threshold, so (outside cooldown) a slash event fires
carrying a non-finite speed value. -/
theorem C9_zero_time_diff_nan_or_infinite_speed
    (hist : List Sample) (t0 : ℤ)
    (hlen : 5 ≤ hist.length) (hsame : ∀ s ∈ hist, s.time = t0) :
    slashTimeDiff hist = 0 ∧
    (slashDispSq hist = 0 →
      speedClassOf (slashDispSq hist) (slashTimeDiff hist) = .nan ∧
      detectSlashCore hist false = none) ∧
    (0 < slashDispSq hist →
      speedClassOf (slashDispSq hist) (slashTimeDiff hist) = .infinite ∧
      ∃ e : SlashEvt, detectSlashCore hist false = some e ∧
        e.speedClass = .infinite) := by
  have hne : hist ≠ [] := by
    intro h
    rw [h] at hlen
    simp at hlen
  have htd : slashTimeDiff hist = 0 :=
    slashTimeDiff_eq_zero_of_const hist t0 hne hsame
  have hnotlt : ¬ hist.length < 5 := by omega
  refine ⟨htd, ?_, ?_⟩
  · intro hd0
    constructor
    · simp [speedClassOf, htd, hd0]
    · unfold detectSlashCore
      rw [if_neg hnotlt]
      simp [speedExceeds, htd, hd0]
  · intro hdpos
    constructor
    · simp [speedClassOf, htd, hdpos]
    · refine ⟨⟨(slashOldest hist).x, (slashOldest hist).y,
        (slashNewest hist).x, (slashNewest hist).y, .infinite⟩, ?_, rfl⟩
      unfold detectSlashCore
      rw [if_neg hnotlt]
      simp [speedExceeds, speedClassOf, htd, hdpos]

/-- Witness for C9: five wrist samples captured in the same millisecond
(time 7) with a 10 px displacement fire a slash whose speed is
Infinity. -/
theorem C9_zero_time_diff_witness :
    (5 ≤ ([⟨0, 0, 7⟩, ⟨2, 0, 7⟩, ⟨4, 0, 7⟩, ⟨6, 0, 7⟩,
          ⟨10, 0, 7⟩] : List Sample).length) ∧
    (∀ s ∈ ([⟨0, 0, 7⟩, ⟨2, 0, 7⟩, ⟨4, 0, 7⟩, ⟨6, 0, 7⟩,
          ⟨10, 0, 7⟩] : List Sample), s.time = 7) ∧
    (0 < slashDispSq [⟨0, 0, 7⟩, ⟨2, 0, 7⟩, ⟨4, 0, 7⟩, ⟨6, 0, 7⟩, ⟨10, 0, 7⟩] →
      speedClassOf
          (slashDispSq [⟨0, 0, 7⟩, ⟨2, 0, 7⟩, ⟨4, 0, 7⟩, ⟨6, 0, 7⟩, ⟨10, 0, 7⟩])
          (slashTimeDiff [⟨0, 0, 7⟩, ⟨2, 0, 7⟩, ⟨4, 0, 7⟩, ⟨6, 0, 7⟩, ⟨10, 0, 7⟩]) =
        .infinite ∧
      ∃ e : SlashEvt,
        detectSlashCore [⟨0, 0, 7⟩, ⟨2, 0, 7⟩, ⟨4, 0, 7⟩, ⟨6, 0, 7⟩, ⟨10, 0, 7⟩]
            false = some e ∧
          e.speedClass = .infinite) ∧
    (0 : ℚ) < slashDispSq [⟨0, 0, 7⟩, ⟨2, 0, 7⟩, ⟨4, 0, 7⟩, ⟨6, 0, 7⟩, ⟨10, 0, 7⟩] :=
  ⟨by decide, by decide,
   (C9_zero_time_diff_nan_or_infinite_speed _ 7 (by decide) (by decide)).2.2,
   by norm_num [slashDispSq, slashNewest, slashOldest]⟩

/-! ## Collectible entities, collision and collection
(`src/collectibles.js`) -/

/-- The fixed catalog of collectible kinds (collectibles.js lines
50-56). -/
inductive Kind
  | acorn
  | mushroom
  | pinecone
  | leaf
  | stone
  deriving DecidableEq, Repr

/-- A spawned collectible (collectibles.js lines 183-194). The source
stores the catalog entry as `type` and copies its `size`; here the kind
and the size are carried directly. -/
structure Collectible where
  id : ℕ
  kind : Kind
  x : ℚ
  y : ℚ
  initialY : ℚ
  size : ℚ
  speed : ℚ
  scale : ℚ
  maxScale : ℚ
  createdAt : ℤ
  deriving DecidableEq, Repr

/-- The per-entity hit test of `checkCollision` (collectibles.js lines
708-716): distance(hand, center) < (size × scale) / 2 + 30, in squares
(the hit radius is non-negative for every spawned entity, whose size is
at least 35 and scale at least 0.3). -/
def hitTest (hx hy : ℚ) (c : Collectible) : Bool :=
  decide (distSq (hx, hy) (c.x, c.y) < ((c.size * c.scale) / 2 + 30) ^ 2)

/-- The loop of `checkCollision` runs the index from the end of the
array toward the front (reverse-recency order) and splices out the first
hit. `grabFirst` performs that scan on a list ordered most-recent-first,
returning the collected entity and the remaining (still
most-recent-first) list. -/
def grabFirst (hx hy : ℚ) : List Collectible → Option (Collectible × List Collectible)
  | [] => none
  | c :: rest =>
      if hitTest hx hy c then some (c, rest)
      else
        match grabFirst hx hy rest with
        | none => none
        | some (g, r) => some (g, c :: r)

/-- `checkCollision(handX, handY)` combined with the `splice` performed
by `collectCollectible` (collectibles.js lines 705-722 and 729): scan the
live list from most recent to oldest, remove the first hit; the Boolean
is whether an entity was grabbed. -/
def checkCollision (hx hy : ℚ) (l : List Collectible) : Bool × List Collectible :=
  match grabFirst hx hy l.reverse with
  | none => (false, l)
  | some (_, r) => (true, r.reverse)

/-- The aging update of one entity inside `updateCollectibles`
(collectibles.js lines 227-236): position drifts down 50 px/s and scale
grows from 0.3 by 0.3/s clamped at `maxScale`, both as functions of age. -/
def updateCollectible (now : ℤ) (c : Collectible) : Collectible :=
  let age : ℚ := ((now - c.createdAt : ℤ) : ℚ) / 1000
  { c with y := c.initialY + age * 50,
           scale := min c.maxScale (3 / 10 + age * (3 / 10)) }

/-- `updateCollectibles()` (collectibles.js lines 224-241): age every
entity, keep those above the bottom bound `height + 50`. -/
def updateCollectibles (now : ℤ) (height : ℚ) (l : List Collectible) : List Collectible :=
  (l.map (updateCollectible now)).filter (fun c => decide (c.y < height + 50))

/-- The operations a later frame can apply to the live entity set:
aging/pruning, a spawn (pushed at the end), or another collision pass. -/
inductive FrameOp
  | update (now : ℤ) (height : ℚ)
  | spawn (c : Collectible)
  | collide (hx hy : ℚ)

/-- Apply one frame operation to the live list. -/
def applyOp (l : List Collectible) : FrameOp → List Collectible
  | .update now h => updateCollectibles now h l
  | .spawn c => l ++ [c]
  | .collide hx hy => (checkCollision hx hy l).2

/-- Apply a sequence of frame operations. -/
def applyOps (l : List Collectible) (ops : List FrameOp) : List Collectible :=
  ops.foldl applyOp l

/-- An operation never re-introduces the id `n` (spawned ids are fresh:
the source draws them from `Date.now() + Math.random()`). -/
def spawnFresh (n : ℕ) : FrameOp → Prop
  | .spawn c => c.id ≠ n
  | _ => True

lemma grabFirst_none_spec (hx hy : ℚ) :
    ∀ l : List Collectible, grabFirst hx hy l = none →
      ∀ c ∈ l, hitTest hx hy c = false := by
  intro l
  induction l with
  | nil => intro _ c hc; simp at hc
  | cons a rest ih =>
      intro hnone c hc
      by_cases ha : hitTest hx hy a
      · simp [grabFirst, ha] at hnone
      · rcases List.mem_cons.mp hc with rfl | hc'
        · simpa using ha
        · rcases hrec : grabFirst hx hy rest with _ | p
          · exact ih hrec c hc'
          · simp [grabFirst, ha, hrec] at hnone

lemma grabFirst_some_spec (hx hy : ℚ) :
    ∀ (l : List Collectible) (g : Collectible) (r : List Collectible),
      grabFirst hx hy l = some (g, r) →
      ∃ pre suf, l = pre ++ g :: suf ∧ (∀ c ∈ pre, hitTest hx hy c = false) ∧
        hitTest hx hy g = true ∧ r = pre ++ suf := by
  intro l
  induction l with
  | nil => intro g r h; simp [grabFirst] at h
  | cons a rest ih =>
      intro g r h
      by_cases ha : hitTest hx hy a
      · simp only [grabFirst, if_pos ha, Option.some.injEq, Prod.mk.injEq] at h
        exact ⟨[], rest, by simp [h.1], by simp, by rw [← h.1]; exact ha, by simp [h.2]⟩
      · rcases hrec : grabFirst hx hy rest with _ | ⟨g', r'⟩
        · simp [grabFirst, ha, hrec] at h
        · simp only [grabFirst, if_neg ha, hrec, Option.some.injEq, Prod.mk.injEq] at h
          obtain ⟨hg2, hr2⟩ := h
          obtain ⟨pre, suf, hl, hmiss, hhit, hr⟩ := ih g' r' hrec
          refine ⟨a :: pre, suf, ?_, ?_, ?_, ?_⟩
          · rw [← hg2, hl]
            simp
          · intro c hc
            rcases List.mem_cons.mp hc with rfl | hc'
            · simpa using ha
            · exact hmiss c hc'
          · rw [← hg2]
            exact hhit
          · rw [← hr2, hr]
            simp

lemma nodup_map_removed_not_mem {α β : Type} (f : α → β) (l₁ l₂ : List α) (a : α)
    (h : ((l₁ ++ a :: l₂).map f).Nodup) : f a ∉ (l₁ ++ l₂).map f := by
  simp only [List.map_append, List.map_cons] at h
  rw [List.nodup_append] at h
  intro hmem
  simp only [List.map_append, List.mem_append] at hmem
  rcases hmem with hm | hm
  · exact (h.2.2 hm) (List.mem_cons_self _ _)
  · exact (List.nodup_cons.mp h.2.1).1 hm

lemma checkCollision_snd_sublist (hx hy : ℚ) (l : List Collectible) :
    (checkCollision hx hy l).2.Sublist l := by
  unfold checkCollision
  rcases hg : grabFirst hx hy l.reverse with _ | ⟨g, r⟩
  · simp
  · obtain ⟨pre, suf, hl, -, -, hr⟩ := grabFirst_some_spec hx hy l.reverse g r hg
    simp only []
    have hsub : r.Sublist l.reverse := by
      rw [hr, hl]
      exact (List.sublist_cons_self g suf).append_left pre
    have := hsub.reverse
    simpa using this

lemma updateCollectible_id (now : ℤ) (c : Collectible) :
    (updateCollectible now c).id = c.id := rfl

lemma applyOp_id_not_mem (n : ℕ) (l : List Collectible) (op : FrameOp)
    (hfresh : spawnFresh n op) (h : n ∉ l.map Collectible.id) :
    n ∉ (applyOp l op).map Collectible.id := by
  cases op with
  | update now height =>
      intro hmem
      apply h
      simp only [applyOp, updateCollectibles, List.mem_map] at hmem
      obtain ⟨c, hc, hcn⟩ := hmem
      have hc' := List.mem_of_mem_filter hc
      simp only [List.mem_map] at hc'
      obtain ⟨c0, hc0, rfl⟩ := hc'
      exact List.mem_map.mpr ⟨c0, hc0, by rw [← hcn, updateCollectible_id]⟩
  | spawn c =>
      intro hmem
      simp only [applyOp, List.map_append, List.mem_append] at hmem
      rcases hmem with hmem | hmem
      · exact h hmem
      · simp only [List.map_cons, List.map_nil, List.mem_singleton] at hmem
        exact hfresh hmem.symm
  | collide hx hy =>
      intro hmem
      apply h
      have hsub := (checkCollision_snd_sublist hx hy l).map Collectible.id
      exact hsub.mem hmem

lemma applyOps_id_not_mem (n : ℕ) (l : List Collectible) (ops : List FrameOp)
    (hfresh : ∀ op ∈ ops, spawnFresh n op) (h : n ∉ l.map Collectible.id) :
    n ∉ (applyOps l ops).map Collectible.id := by
  induction ops generalizing l with
  | nil => exact h
  | cons op rest ih =>
      exact ih (applyOp l op)
        (fun o ho => hfresh o (List.mem_cons_of_mem op ho))
        (applyOp_id_not_mem n l op (hfresh op (List.mem_cons_self op rest)) h)

/-- C7: per frame, the collision check removes at most one entity — the
first entity in reverse-recency order whose center lies within
(size × scale)/2 + 30 of the anchor (every more-recent entity misses);
on a miss the live set is untouched and nothing was in range; and, when
live ids are distinct, the collected entity is removed at collection time
and stays absent from the live set under every sequence of subsequent
frame operations whose spawns use fresh ids. -/
theorem C7_at_most_one_collection_and_permanent_removal
    (hx hy : ℚ) (l : List Collectible) :
    ((checkCollision hx hy l).1 = false →
        (checkCollision hx hy l).2 = l ∧ ∀ c ∈ l, hitTest hx hy c = false) ∧
    (∀ g r, grabFirst hx hy l.reverse = some (g, r) →
        checkCollision hx hy l = (true, r.reverse) ∧
        hitTest hx hy g = true ∧
        (∃ l₁ l₂, l = l₁ ++ g :: l₂ ∧ (∀ c ∈ l₂, hitTest hx hy c = false) ∧
            r.reverse = l₁ ++ l₂) ∧
        ((l.map Collectible.id).Nodup →
          ∀ ops : List FrameOp, (∀ op ∈ ops, spawnFresh g.id op) →
            g.id ∉ (applyOps r.reverse ops).map Collectible.id)) := by
  constructor
  · intro hfalse
    rcases hg : grabFirst hx hy l.reverse with _ | ⟨g, r⟩
    · refine ⟨by simp [checkCollision, hg], ?_⟩
      intro c hc
      exact grabFirst_none_spec hx hy l.reverse hg c (List.mem_reverse.mpr hc)
    · simp [checkCollision, hg] at hfalse
  · intro g r hg
    obtain ⟨pre, suf, hl, hmiss, hhit, hr⟩ := grabFirst_some_spec hx hy l.reverse g r hg
    have hldecomp : l = suf.reverse ++ g :: pre.reverse := by
      have := congrArg List.reverse hl
      simpa [List.reverse_append] using this
    have hrrev : r.reverse = suf.reverse ++ pre.reverse := by
      rw [hr]
      simp [List.reverse_append]
    refine ⟨by simp [checkCollision, hg], hhit,
      ⟨suf.reverse, pre.reverse, hldecomp, ?_, hrrev⟩, ?_⟩
    · intro c hc
      exact hmiss c (List.mem_reverse.mp hc)
    · intro hnodup ops hfresh
      apply applyOps_id_not_mem g.id r.reverse ops hfresh
      rw [hldecomp] at hnodup
      rw [hrrev]
      exact nodup_map_removed_not_mem Collectible.id suf.reverse pre.reverse g hnodup

/-- The concrete entity of the C7 witness: an acorn at the origin with
scale 1 (hit radius 50). -/
def collC7 : Collectible :=
  ⟨1, .acorn, 0, 0, 0, 40, 1 / 5, 1, 3 / 2, 0⟩

/-- A later spawn with a fresh id, for the C7 witness. -/
def collC7b : Collectible :=
  ⟨2, .mushroom, 50, 72, 72, 45, 1 / 5, 3 / 10, 3 / 2, 1000⟩

/-- Witness for C7: a pinch at the origin collects the single live
acorn, which is removed and stays absent after a later fresh spawn. -/
theorem C7_at_most_one_collection_witness :
    grabFirst 0 0 [collC7].reverse = some (collC7, []) ∧
    checkCollision 0 0 [collC7] = (true, ([] : List Collectible).reverse) ∧
    hitTest 0 0 collC7 = true ∧
    collC7.id ∉ (applyOps ([] : List Collectible).reverse
        [FrameOp.spawn collC7b]).map Collectible.id := by
  have hg : grabFirst 0 0 [collC7].reverse = some (collC7, []) := by
    norm_num [grabFirst, hitTest, distSq, collC7]
  have h := (C7_at_most_one_collection_and_permanent_removal 0 0 [collC7]).2
    collC7 [] hg
  refine ⟨hg, h.1, h.2.1, h.2.2.2 (by simp) [FrameOp.spawn collC7b] ?_⟩
  intro op hop
  simp only [List.mem_singleton] at hop
  subst hop
  exact fun hc => by simp [collC7b, collC7] at hc

/-! ## Collection commit, score and inventory (`src/collectibles.js`) -/

/-- The game state touched by collection and item use: the live entity
list, the per-kind inventory map, the visible collected counter, and the
due times of score increments scheduled by `setTimeout(..., 2000)`
(constructor lines 8-9 and 31-37; a fresh game has empty inventory and
zero score). -/
structure GState where
  collectibles : List Collectible
  inventory : Kind → ℤ
  collectedCount : ℤ
  pending : List ℤ

/-- The freshly constructed game state. -/
def initGState : GState :=
  ⟨[], fun _ => 0, 0, []⟩

/-- `collectCollectible(collectible, index)` (collectibles.js lines
727-751) at time `now`: splice the entity out of the live array,
increment the inventory count for its kind immediately, and schedule the
visible counter increment for `now + 2000` (the `setTimeout` at lines
741-745; `collectedCount++` is deliberately not executed now, lines
734-735). -/
def collectCollectible (now : ℤ) (c : Collectible) (i : ℕ) (s : GState) : GState :=
  { s with
      collectibles := s.collectibles.eraseIdx i,
      inventory := fun k => if k = c.kind then s.inventory k + 1 else s.inventory k,
      pending := s.pending ++ [now + 2000] }

/-- Fire every scheduled `setTimeout` whose due time has been reached by
wall-clock time `now`: each one increments `collectedCount` by 1. -/
def firePending (now : ℤ) (s : GState) : GState :=
  { s with
      collectedCount :=
        s.collectedCount + ((s.pending.filter (fun d => decide (d ≤ now))).length : ℤ),
      pending := s.pending.filter (fun d => decide (¬ d ≤ now)) }

/-- `getScore()` (collectibles.js lines 1100-1102). -/
def getScore (s : GState) : ℤ :=
  s.collectedCount

/-- `useItem(itemType)` (collectibles.js lines 1217-1226): only when the
inventory count for the kind is positive, decrement it and decrement the
visible collected counter. -/
def useItem (k : Kind) (s : GState) : GState :=
  if s.inventory k > 0 then
    { s with
        inventory := fun q => if q = k then s.inventory q - 1 else s.inventory q,
        collectedCount := s.collectedCount - 1 }
  else s

/-- C2 counterexample: at collection time T the inventory count for the
collected kind is NOT unchanged — collecting the acorn `collC7` at
T = 1000 from a fresh game takes the acorn count from 0 to 1 immediately
(collectibles.js line 732 increments the inventory with no delay). -/
theorem C2_counterexample_inventory_incremented_immediately :
    (collectCollectible 1000 collC7 0 initGState).inventory Kind.acorn ≠
      initGState.inventory Kind.acorn ∧
    (collectCollectible 1000 collC7 0 initGState).inventory Kind.acorn = 1 := by
  constructor <;> simp [collectCollectible, initGState, collC7]

/-- C2 (amended): a successful collection at time T removes the entity
from the live set immediately and defers the visible score increment by
2000 ms — the score is unchanged at T and at every instant before
T + 2000, and is incremented by exactly 1 once T + 2000 is reached — but
the inventory increment is NOT deferred: the count for the collected
kind is incremented by exactly 1 immediately at T. (Stated for a state
with no other score increment already in flight.) -/
theorem C2_collection_commit_timing (s : GState) (c : Collectible) (i : ℕ)
    (now : ℤ) (hp : s.pending = []) :
    (collectCollectible now c i s).collectibles = s.collectibles.eraseIdx i ∧
    (collectCollectible now c i s).inventory c.kind = s.inventory c.kind + 1 ∧
    getScore (collectCollectible now c i s) = getScore s ∧
    (∀ T, T < now + 2000 →
        getScore (firePending T (collectCollectible now c i s)) = getScore s) ∧
    getScore (firePending (now + 2000) (collectCollectible now c i s)) =
      getScore s + 1 := by
  refine ⟨rfl, by simp [collectCollectible], rfl, ?_, ?_⟩
  · intro T hT
    have : ¬ (now + 2000 ≤ T) := by omega
    simp [firePending, collectCollectible, getScore, hp, this]
  · simp [firePending, collectCollectible, getScore, hp]

/-- Witness for C2 (amended): collecting the acorn at T = 1000 in a
fresh game leaves the score 0 at 2999 ms and raises it to 1 at 3000 ms. -/
theorem C2_collection_commit_timing_witness :
    initGState.pending = [] ∧
    getScore (firePending 2999 (collectCollectible 1000 collC7 0 initGState)) =
      getScore initGState ∧
    getScore (firePending 3000 (collectCollectible 1000 collC7 0 initGState)) =
      getScore initGState + 1 :=
  ⟨rfl,
   (C2_collection_commit_timing initGState collC7 0 1000 rfl).2.2.2.1 2999
     (by omega),
   (C2_collection_commit_timing initGState collC7 0 1000 rfl).2.2.2.2⟩

/-- C10: with a positive inventory count for a kind, `useItem` decrements
that count by exactly 1 (never below zero) and decrements the visible
collected counter by 1 with no lower bound; in particular, using the
item during the 2000 ms window between a collection in a fresh game and
its deferred score increment drives `getScore()` to -1. -/
theorem C10_useItem_drives_score_negative :
    (∀ (s : GState) (k : Kind), 0 < s.inventory k →
        (useItem k s).inventory k = s.inventory k - 1 ∧
        0 ≤ (useItem k s).inventory k ∧
        getScore (useItem k s) = getScore s - 1) ∧
    getScore (useItem Kind.acorn
        (firePending 1500 (collectCollectible 1000 collC7 0 initGState))) = -1 := by
  constructor
  · intro s k hk
    refine ⟨by simp [useItem, hk], ?_, by simp [useItem, hk, getScore]⟩
    simp only [useItem, if_pos hk, if_pos rfl]
    omega
  · norm_num [useItem, getScore, firePending, collectCollectible, initGState, collC7]

/-- Witness for C10: the state 500 ms after collecting the acorn has
acorn count 1 > 0, and applying the theorem there gives count 0 and
score -1. -/
theorem C10_useItem_drives_score_negative_witness :
    (0 : ℤ) < (firePending 1500
        (collectCollectible 1000 collC7 0 initGState)).inventory Kind.acorn ∧
    (useItem Kind.acorn (firePending 1500
        (collectCollectible 1000 collC7 0 initGState))).inventory Kind.acorn =
      (firePending 1500
        (collectCollectible 1000 collC7 0 initGState)).inventory Kind.acorn - 1 ∧
    getScore (useItem Kind.acorn (firePending 1500
        (collectCollectible 1000 collC7 0 initGState))) =
      getScore (firePending 1500 (collectCollectible 1000 collC7 0 initGState)) - 1 := by
  have hpos : (0 : ℤ) < (firePending 1500
      (collectCollectible 1000 collC7 0 initGState)).inventory Kind.acorn := by
    simp [firePending, collectCollectible, initGState, collC7]
  have h := C10_useItem_drives_score_negative.1
    (firePending 1500 (collectCollectible 1000 collC7 0 initGState)) Kind.acorn hpos
  exact ⟨hpos, h.1, h.2.2⟩

end VirtualTrailRun
